import Mathlib

/-!
Verification development for the Telegram voice-synthesis bot,
`modules/bot_handlers.py`. The job pipeline (dispatcher, worker thread,
result fan-out, progress-message lifecycle, cleanup) is shallowly embedded:

* Python `str` values are modelled as `List Char` (`Str` below); `len` is
  `List.length`, slicing `text[:M]` is `List.take M`, `+` is `++`.
* External collaborators (`transcribe_voice`, `validate_text`,
  `tts_audio_from_text`, `convert_to_voice`, message sending/deleting) are
  oracle parameters: each is given by its observable result for the job at
  hand.  `MAX_CHARS_NUM` and `RESULTS_PATH` come from `modules.bot_utils`
  (not part of the sources) and are kept as parameters.
* Each handler is a pure function from its inputs and oracles to the list
  of observable events it performs, in program order, plus the exception it
  lets escape (if any).
-/

namespace VoiceBot

/-- Python strings are modelled as lists of characters. -/
abbrev Str := List Char

/-- Observable events of the front-context handlers, in program order. -/
inductive Ev where
  /-- call to `clear_dir(RESULTS_PATH)` (removes every file in the shared
  results directory) -/
  | clearDir
  /-- `logger.error` with the worker exception detail -/
  | logError (detail : Str)
  /-- an attempt to delete the progress message (`msg.delete()`) -/
  | attemptDeleteMsg
  /-- `logger.error("Failed to delete progress message")` -/
  | logDeleteFail
  /-- the localized failure notice sent to the requester -/
  | sendFailNotice (txt : Str)
  /-- successful `message.reply_voice` for sample `i` with the given caption -/
  | sendVoice (i : Nat) (caption : Str)
  /-- `logger.info("Audio generation DONE ...")` for sample `i` -/
  | logDone (i : Nat)
  deriving DecidableEq

/-- Observable calls of the worker-side coroutine `run_gen_audio`. -/
inductive WEv where
  | callTranscribe
  | callValidate
  | callTts
  deriving DecidableEq

/-- The `data` argument of `start_gen_task` / `run_gen_audio`: either the
text of a text message or the raw audio of a voice message (`ndarray`,
abstracted to an opaque id). -/
inductive JobData where
  | text (t : Str)
  | audio (a : Nat)
  deriving DecidableEq

/-- Oracles for the external calls made by `run_gen_audio` on the worker
thread for one job: the result of `transcribe_voice`, of `validate_text`
on the transcription, and of `tts_audio_from_text`.  `Except.error d`
models the call raising an exception with detail `d`. -/
structure WorkerEnv where
  transcribeRes : Except Str Str
  validateRes : Str → Bool × Str
  ttsRes : Except Str Unit
  deriving Inhabited

/-- Embeds lines 290-294 (`delete_progress_msg`): attempts `msg.delete()`;
a `TelegramError` is caught and logged, the function never raises.  The
oracle `deleteOk` tells whether the deletion attempt succeeds. -/
def delete_progress_msg (deleteOk : Bool) : List Ev :=
  Ev.attemptDeleteMsg :: (if deleteOk then [] else [Ev.logDeleteFail])

/-- Embeds line 266-267 of `post_eval_gen_task`: the in-place caption
truncation `if len(text) > MAX_CHARS_NUM: text = f"{text[:MAX_CHARS_NUM]}..."`. -/
def elide (M : Nat) (text : Str) : Str :=
  if M < text.length then text.take M ++ "...".data else text

/-- Embeds the `for sample_ind in range(samples_num)` loop of
`post_eval_gen_task` (lines 260-270).  `count` is the number of remaining
iterations, `i` the next sample index, `text` the current value of the
mutable caption variable.  `convertOk i` tells whether
`convert_to_voice` succeeds for sample `i` (it raises when the sample
file is missing or conversion fails); `sendOk i` tells whether
`reply_voice` succeeds.  Returns the events performed, the final value of
`text`, and whether an exception escaped the loop body. -/
def gen_loop (M : Nat) (convertOk sendOk : Nat → Bool) :
    Nat → Nat → Str → List Ev × Str × Bool
  | 0, _, text => ([], text, false)
  | count + 1, i, text =>
    if convertOk i then
      let t := elide M text
      if sendOk i then
        let r := gen_loop M convertOk sendOk count (i + 1) t
        (Ev.sendVoice i t :: Ev.logDone i :: r.1, r.2.1, r.2.2)
      else ([], t, true)
    else ([], text, true)

/-- Embeds lines 256-277 (`post_eval_gen_task`): runs the fan-out loop;
on an exception it schedules `delete_progress_msg`, calls `clear_dir`
and re-raises `TelegramError("Audio generation Error")`; otherwise it
schedules `delete_progress_msg` and calls `clear_dir`.  (`app.create_task`
defers the deletion to the same front event loop; it is performed exactly
once per scheduling, so its events are recorded at the scheduling point.)
Returns the trace and the exception escaping the handler, if any. -/
def post_eval_gen_task (M : Nat) (convertOk sendOk : Nat → Bool)
    (deleteOk : Bool) (text : Str) (samples_num : Nat) : List Ev × Option Str :=
  let r := gen_loop M convertOk sendOk samples_num 0 text
  (r.1 ++ delete_progress_msg deleteOk ++ [Ev.clearDir],
    if r.2.2 then some ("Audio generation Error".data) else none)

/-- The localized failure notice of `post_eval_gen_report_error`
(line 251-252, the English default variant; locale selection is an
external collaborator).  It is a function of the user mention only —
the exception is not part of the message. -/
def failNotice (userMention : Str) : Str :=
  "Sorry ".data ++ userMention ++
    ", your audio generation failed, please try again".data

/-- Embeds lines 245-253 (`post_eval_gen_report_error`): calls
`clear_dir`, logs the worker exception, awaits `delete_progress_msg`,
and (when the update and its message/user are present, `hasUpd`) sends
the single localized failure notice.  Never raises. -/
def post_eval_gen_report_error (deleteOk : Bool) (exc : Str)
    (userMention : Str) (hasUpd : Bool) : List Ev :=
  Ev.clearDir :: Ev.logError exc ::
    delete_progress_msg deleteOk ++
      (if hasUpd then [Ev.sendFailNotice (failNotice userMention)] else [])

/-- Embeds lines 217-233 (`run_gen_audio`, running on the tts worker
thread).  Inside `try`: if the payload is audio it transcribes it
(assignment to `data`), re-validates the transcription and raises on
validation failure; then calls `tts_audio_from_text`.  The `except`
branch schedules `post_eval_gen_report_error` onto the app loop via
`asyncio.run_coroutine_threadsafe` and does NOT re-raise, so control
always reaches the final `return update, app, ..., data, samples_num`.
Returns: the worker calls performed, the exception detail scheduled to
the report path (`none` when no exception occurred), and the `data`
field of the returned tuple. -/
def run_gen_audio (env : WorkerEnv) (data : JobData) :
    List WEv × Option Str × JobData :=
  match data with
  | .audio a =>
    match env.transcribeRes with
    | .error e => ([WEv.callTranscribe], some e, .audio a)
    | .ok t =>
      let v := env.validateRes t
      if v.1 then
        match env.ttsRes with
        | .error e =>
          ([WEv.callTranscribe, WEv.callValidate, WEv.callTts], some e, .text t)
        | .ok _ =>
          ([WEv.callTranscribe, WEv.callValidate, WEv.callTts], none, .text t)
      else
        ([WEv.callTranscribe, WEv.callValidate],
          some ("text validation error: ".data ++ v.2), .text t)
  | .text t =>
    match env.ttsRes with
    | .error e => ([WEv.callTts], some e, .text t)
    | .ok _ => ([WEv.callTts], none, .text t)

/-- Embeds lines 236-242 (`eval_gen_task`, the `Future` done-callback):
`future.result()` either raises (then the error is logged and nothing
more happens, `none`) or yields the tuple returned by `run_gen_audio`,
in which case `post_eval_gen_task` is scheduled with it (`some`).
Since `run_gen_audio` always returns its tuple, the argument is always
`Except.ok` in the composed pipeline. -/
def eval_gen_task (res : Except Str JobData) : Option JobData :=
  match res with
  | .error _ => none
  | .ok d => some d

/-- The `data` element of the worker tuple as it is used by
`post_eval_gen_task` (its `text` parameter).  When the worker failed
before transcription the tuple still carries the raw audio object where
a `str` is expected; its caption semantics is irrelevant because on that
path no sample file exists, so the loop raises at `convert_to_voice`
before any caption is used.  It is modelled as the empty string. -/
def dataText : JobData → Str
  | .text t => t
  | .audio _ => []

/-- The front-context continuations scheduled for one job. -/
inductive FrontTask where
  | reportError (exc : Str)
  | postEval (data : JobData)
  deriving DecidableEq

/-- Composition of the per-job wiring (lines 212-214, 228-231, 236-242):
`start_gen_task` submits `run_gen_audio` to the tts worker loop and
registers `eval_gen_task` as done-callback; the worker `except` branch
schedules the failure-report continuation; the done-callback schedules
the fan-out continuation from the returned tuple.  The resulting list is
the front-context tasks created for the job, in scheduling order. -/
def job_front_tasks (env : WorkerEnv) (data : JobData) : List FrontTask :=
  let w := run_gen_audio env data
  (match w.2.1 with
   | some e => [FrontTask.reportError e]
   | none => []) ++
  (match eval_gen_task (.ok w.2.2) with
   | some d => [FrontTask.postEval d]
   | none => [])

/-- Runs the front-context tasks of one job in scheduling order and
concatenates their event traces; the second component is the exception
escaping `post_eval_gen_task`, if any (`post_eval_gen_report_error`
never raises). -/
def job_run (M : Nat) (convertOk sendOk : Nat → Bool) (deleteOk : Bool)
    (userMention : Str) (hasUpd : Bool) (samples_num : Nat)
    (env : WorkerEnv) (data : JobData) : List Ev × Option Str :=
  let w := run_gen_audio env data
  let reportEvs : List Ev :=
    match w.2.1 with
    | some e => post_eval_gen_report_error deleteOk e userMention hasUpd
    | none => []
  match eval_gen_task (.ok w.2.2) with
  | some d =>
    let post := post_eval_gen_task M convertOk sendOk deleteOk (dataText d) samples_num
    (reportEvs ++ post.1, post.2)
  | none => (reportEvs, none)

/-- Modelled from the spec: `clear_dir` lives in `modules.bot_utils`,
which is not among the sources; spec section 5 states that cleanup
"clears the *entire* shared directory after each job", i.e. every file in
the shared results directory is removed, regardless of which job owns it.
The directory is modelled by its listing; the result is the listing after
the call. -/
def clear_dir (_files : List Str) : List Str := []

/-- Whether file name `f` is under the output path prefix `p`
(i.e. `p` is an initial segment of `f`). -/
def hasPfx (p f : Str) : Bool := f.take p.length == p

/-- Decimal digit characters, embedding the rendering Python's
`'{}'.format` applies to a nonnegative `int` digit by digit.  Only used
with arguments below 10. -/
def decDigitChar (d : Nat) : Char := Char.ofNat (48 + d)

/-- Decimal rendering of a natural number, fuel-indexed so that it is
structurally recursive (the fuel `n + 1` always suffices). -/
def natDecimalAux : Nat → Nat → List Char
  | 0, _ => []
  | fuel + 1, n =>
    if n < 10 then [decDigitChar n]
    else natDecimalAux fuel (n / 10) ++ [decDigitChar (n % 10)]

/-- Decimal rendering of a nonnegative integer, as Python's `str`. -/
def natDecimal (n : Nat) : List Char := natDecimalAux (n + 1) n

/-- Embeds line 210 of `start_gen_task` (and the analogous line 174):
`os.path.abspath(os.path.join(RESULTS_PATH, '{}_{}.wav'.format(user.id,
int(time.time()))))`.  `resultsDir` is the absolute results directory
(`RESULTS_PATH` resolved against the fixed working directory, the same
for every job).  The wall-clock submission time is carried in
milliseconds; `int(time.time())` floors it to whole seconds,
`timeMs / 1000`. -/
def filename_result (resultsDir : Str) (userId : Nat) (timeMs : Nat) : Str :=
  resultsDir ++ '/' :: (natDecimal userId ++ '_' ::
    (natDecimal (timeMs / 1000) ++ ".wav".data))

/- The worker pipeline as a transition system (C8).  `TTSWorkThread`
(lines 41-55) is one dedicated thread running one asyncio event loop;
`start_gen_task` (line 213) submits `run_gen_audio` to it with
`asyncio.run_coroutine_threadsafe`, which enqueues the coroutine FIFO.
`run_gen_audio` contains no `await`, so once started it runs to
completion before the loop can take the next coroutine.  On completion
the done-callback schedules the front-context continuation
(delivery or failure report, then cleanup), which runs later on the
front loop.  Steps of the two loops interleave arbitrarily. -/

/-- Scheduler actions: submit a fresh job, start the next queued job on
the worker loop, finish the running job (which enqueues its front
continuation), run the next front continuation to completion
(delivery/report and cleanup, the terminal state of the job). -/
inductive PAct where
  | submit (j : Nat)
  | wStart
  | wFinish
  | fRun
  deriving DecidableEq

/-- Pipeline state: all submitted job ids in submission order, the
worker queue, the job currently executing on the worker loop, the jobs
whose worker phase finished (in finish order), the pending front
continuations, and the jobs that reached their terminal (cleaned-up)
state. -/
structure PState where
  submitted : List Nat
  queue : List Nat
  running : Option Nat
  workerDone : List Nat
  frontQueue : List Nat
  cleaned : List Nat
  deriving DecidableEq

/-- The initial pipeline state. -/
def pInit : PState := ⟨[], [], none, [], [], []⟩

/-- One scheduler step; `none` when the action is not enabled. -/
def pStep (s : PState) : PAct → Option PState
  | .submit j =>
    if s.submitted.contains j then none
    else some { s with submitted := s.submitted ++ [j], queue := s.queue ++ [j] }
  | .wStart =>
    match s.running, s.queue with
    | none, j :: q => some { s with queue := q, running := some j }
    | _, _ => none
  | .wFinish =>
    match s.running with
    | some j =>
      some { s with running := none, workerDone := s.workerDone ++ [j],
                    frontQueue := s.frontQueue ++ [j] }
    | none => none
  | .fRun =>
    match s.frontQueue with
    | j :: q => some { s with frontQueue := q, cleaned := s.cleaned ++ [j] }
    | [] => none

/-- Runs a sequence of scheduler actions from a state. -/
def pRun : PState → List PAct → Option PState
  | s, [] => some s
  | s, a :: as =>
    match pStep s a with
    | some t => pRun t as
    | none => none

/- Cross-context hand-off model (C9).  Each cross-context invocation is
recorded with the execution context it is made from, the primitive used,
and whether it invokes an operation owned by the front context. -/

/-- The two scheduling contexts. -/
inductive ExecCtx where
  | front
  | worker
  deriving DecidableEq

/-- How a cross-context invocation is performed: through the thread-safe
`asyncio.run_coroutine_threadsafe` hand-off, or by calling the target
operation directly on the invoking thread. -/
inductive HandoffKind where
  | threadsafe
  | direct
  deriving DecidableEq

/-- One cross-context invocation. -/
structure SchedCall where
  ctx : ExecCtx
  kind : HandoffKind
  frontOwned : Bool
  deriving DecidableEq

/-- A list of cross-context invocations is safe when every invocation of
a front-context-owned operation made from the worker context goes
through the thread-safe primitive. -/
def safeHandoffs (cs : List SchedCall) : Bool :=
  cs.all fun c => !(c.ctx == ExecCtx.worker && c.frontOwned)
    || (c.kind == HandoffKind.threadsafe)

/-- The cross-context invocations of `run_gen_audio` (lines 228-231): on
a worker exception it invokes the front-owned report continuation via
`asyncio.run_coroutine_threadsafe(handle_post_eval_gen_report_error(...),
app_loop)` — from the worker thread, through the thread-safe primitive. -/
def run_gen_audio_handoffs (errored : Bool) : List SchedCall :=
  if errored then [⟨ExecCtx.worker, HandoffKind.threadsafe, true⟩] else []

/-- The cross-context invocations of `eval_gen_task` (lines 236-242).
It is registered with `future.add_done_callback` on the
`concurrent.futures.Future` of `run_coroutine_threadsafe` (line 214), so
it executes on the thread that completes the future — the tts worker
thread.  There it calls `app.create_task(post_eval_gen_task(...))`
directly: `Application.create_task` is front-context-owned (it calls the
front loop's `create_task`, which is not thread-safe) and no
`run_coroutine_threadsafe` or `call_soon_threadsafe` is interposed. -/
def eval_gen_task_handoffs : List SchedCall :=
  [⟨ExecCtx.worker, HandoffKind.direct, true⟩]

/- Concrete configurations used to evaluate the model. -/

/-- A worker environment whose synthesis call raises with detail
`"boom"` (transcription and validation are not reached for a text job). -/
def envTtsFail : WorkerEnv :=
  { transcribeRes := .ok [], validateRes := fun _ => (true, []), ttsRes := .error ("boom".data) }

/-- A worker environment where every engine call succeeds. -/
def envAllOk : WorkerEnv :=
  { transcribeRes := .ok [], validateRes := fun _ => (true, []), ttsRes := .ok () }

/-- The full front trace of a job whose synthesis call raised: no sample
file was produced, so `convert_to_voice` fails for every index. -/
def traceEngineFail : List Ev :=
  (job_run 5 (fun _ => false) (fun _ => false) true ("u".data) true 1
    envTtsFail (.text ("hi".data))).1

/-- The full front trace of a job where everything succeeds
(one sample). -/
def traceAllOk : List Ev :=
  (job_run 5 (fun _ => true) (fun _ => true) true ("u".data) true 1
    envAllOk (.text ("hi".data))).1

/-- A sample file produced for the job with output path prefix
`/res/1_10` (user 1, second 10). -/
def jobOwnFile : Str := "/res/1_10_0.wav".data

/-- A sample file of a different, concurrently pending job (user 2,
second 999): not under the first job's output path prefix. -/
def otherJobFile : Str := "/res/2_999_0.wav".data

/-- The pipeline state reached by: submit job 0, submit job 1, run job
0's worker phase to completion, start job 1's worker phase — while job
0's front-context continuation (delivery and cleanup, its terminal
state) is still queued. -/
def pMidState : PState := ⟨[0, 1], [], some 1, [0], [0], []⟩

/-- The payloads of the failure notices occurring in a trace. -/
def noticePayloads (evs : List Ev) : List Str :=
  evs.filterMap fun e =>
    match e with
    | Ev.sendFailNotice t => some t
    | _ => none

/-- The delivery events of samples `i, i+1, ..., i+k-1`, each carrying the
caption `elide M t` — the expected shape of a fan-out trace that starts at
index `i` with caption variable `t`. -/
def sends_from (M : Nat) (t : Str) : Nat → Nat → List Ev
  | _, 0 => []
  | i, k + 1 =>
    Ev.sendVoice i (elide M t) :: Ev.logDone i :: sends_from M t (i + 1) k

/-! Helper lemmas about the fan-out loop. -/

/-- The caption truncation step is idempotent. -/
theorem elide_elide (M : Nat) (t : Str) : elide M (elide M t) = elide M t := by
  by_cases h : M < t.length
  · have hl : (t.take M).length = M := by
      simp only [List.length_take]; omega
    have h3 : ("...".data : List Char).length = 3 := rfl
    have h2 : M < (t.take M ++ "...".data).length := by
      rw [List.length_append, hl, h3]; omega
    simp only [elide]
    rw [if_pos h, if_pos h2, List.take_left' hl]
  · simp only [elide]
    rw [if_neg h, if_neg h]

/-- Every caption sent by the fan-out loop equals the truncation of the
caption variable at loop entry. -/
theorem gen_loop_caption (M : Nat) (cOk sOk : Nat → Bool) :
    ∀ (count i : Nat) (t c : Str) (j : Nat),
      Ev.sendVoice j c ∈ (gen_loop M cOk sOk count i t).1 → c = elide M t := by
  intro count
  induction count with
  | zero =>
    intro i t c j h
    simp [gen_loop] at h
  | succ n ih =>
    intro i t c j h
    by_cases hc : cOk i = true
    · by_cases hs : sOk i = true
      · simp only [gen_loop, hc, hs, if_true] at h
        rcases List.mem_cons.mp h with h | h
        · injection h with h1 h2
        · rcases List.mem_cons.mp h with h | h
          · exact absurd h (by simp)
          · have := ih (i + 1) (elide M t) c j h
            rwa [elide_elide] at this
      · simp [gen_loop, hc, hs] at h
    · simp [gen_loop, hc] at h

/-- A delivery event in the trace of `post_eval_gen_task` comes from the
fan-out loop (the deletion and cleanup tail contains no delivery). -/
theorem sendVoice_mem_gen_loop (M : Nat) (cOk sOk : Nat → Bool) (dOk : Bool)
    (text : Str) (n j : Nat) (c : Str)
    (h : Ev.sendVoice j c ∈ (post_eval_gen_task M cOk sOk dOk text n).1) :
    Ev.sendVoice j c ∈ (gen_loop M cOk sOk n 0 text).1 := by
  simp only [post_eval_gen_task, List.mem_append] at h
  rcases h with (h | h) | h
  · exact h
  · cases dOk <;> simp [delete_progress_msg] at h
  · simp at h

/-- Restarting the expected fan-out trace from a truncated caption
changes nothing, by idempotence of truncation. -/
theorem sends_from_elide (M : Nat) (t : Str) :
    ∀ (k i : Nat), sends_from M (elide M t) i k = sends_from M t i k := by
  intro k
  induction k with
  | zero => intro i; rfl
  | succ m ih => intro i; simp [sends_from, elide_elide, ih]

/-- Shape of the fan-out loop result when the first delivery failure
happens `m` iterations after entry: the loop delivers exactly the first
`m` samples and reports an exception. -/
theorem gen_loop_fail (M : Nat) (cOk sOk : Nat → Bool) :
    ∀ (m i count : Nat) (t : Str), m < count →
      (∀ j, j < m → cOk (i + j) = true ∧ sOk (i + j) = true) →
      (cOk (i + m) = false ∨ sOk (i + m) = false) →
      (gen_loop M cOk sOk count i t).1 = sends_from M t i m ∧
        (gen_loop M cOk sOk count i t).2.2 = true := by
  intro m
  induction m with
  | zero =>
    intro i count t hlt hpre hfail
    obtain ⟨c, rfl⟩ : ∃ c, count = c + 1 := ⟨count - 1, by omega⟩
    rw [Nat.add_zero] at hfail
    rcases hfail with hf | hf
    · simp [gen_loop, hf, sends_from]
    · by_cases hc : cOk i = true
      · simp [gen_loop, hc, hf, sends_from]
      · simp [gen_loop, hc, sends_from]
  | succ m ih =>
    intro i count t hlt hpre hfail
    obtain ⟨c, rfl⟩ : ∃ c, count = c + 1 := ⟨count - 1, by omega⟩
    have h0 := hpre 0 (Nat.succ_pos m)
    rw [Nat.add_zero] at h0
    have hrec := ih (i + 1) c (elide M t) (by omega)
      (fun j hj => by
        have := hpre (j + 1) (by omega)
        rwa [show i + (j + 1) = i + 1 + j by omega] at this)
      (by rwa [show i + 1 + m = i + (m + 1) by omega])
    simp only [gen_loop, h0.1, h0.2, if_true]
    refine ⟨?_, by simp [hrec.2]⟩
    simp [sends_from, hrec.1, sends_from_elide]

/-- The worker coroutine performs each engine call at most once per job,
whatever the oracles answer: nothing is retried. -/
theorem run_gen_audio_calls_bounded (env : WorkerEnv) (data : JobData) :
    (run_gen_audio env data).1.countP (fun w => w == WEv.callTts) ≤ 1 ∧
      (run_gen_audio env data).1.countP (fun w => w == WEv.callTranscribe) ≤ 1 := by
  rcases data with t | a
  · rcases hts : env.ttsRes with e | u <;> simp [run_gen_audio, hts]
  · rcases htr : env.transcribeRes with e | t
    · simp [run_gen_audio, htr]
    · by_cases hv : (env.validateRes t).1 = true
      · rcases hts : env.ttsRes with e | u <;>
          simp [run_gen_audio, htr, hv, hts]
      · simp [run_gen_audio, htr, hv]

/-! Decimal rendering: helper lemmas for the output-path uniqueness
analysis. -/

/-- Decimal digit characters are never the underscore separator. -/
theorem decDigitChar_ne_underscore (d : Nat) (hd : d < 10) :
    decDigitChar d ≠ '_' := by
  interval_cases d <;> decide

/-- Code point of a decimal digit character. -/
theorem decDigitChar_toNat (d : Nat) (hd : d < 10) :
    (decDigitChar d).toNat = 48 + d := by
  interval_cases d <;> decide

/-- No character of a decimal rendering is the underscore separator. -/
theorem natDecimalAux_ne_underscore :
    ∀ (fuel n : Nat) (c : Char), c ∈ natDecimalAux fuel n → c ≠ '_' := by
  intro fuel
  induction fuel with
  | zero => intro n c h; simp [natDecimalAux] at h
  | succ f ih =>
    intro n c h
    by_cases hn : n < 10
    · simp only [natDecimalAux, if_pos hn, List.mem_singleton] at h
      subst h
      exact decDigitChar_ne_underscore n hn
    · simp only [natDecimalAux, if_neg hn, List.mem_append,
        List.mem_singleton] at h
      rcases h with h | h
      · exact ih (n / 10) c h
      · subst h
        exact decDigitChar_ne_underscore (n % 10) (Nat.mod_lt n (by omega))

/-- Folding the digit values of a decimal rendering recovers the number. -/
theorem natDecimalAux_val :
    ∀ (fuel n : Nat), n < fuel →
      (natDecimalAux fuel n).foldl (fun a c => 10 * a + (c.toNat - 48)) 0 = n := by
  intro fuel
  induction fuel with
  | zero => intro n h; omega
  | succ f ih =>
    intro n h
    by_cases hn : n < 10
    · simp only [natDecimalAux, if_pos hn, List.foldl_cons, List.foldl_nil]
      rw [decDigitChar_toNat n hn]
      omega
    · have hdiv : n / 10 < n := Nat.div_lt_self (by omega) (by omega)
      simp only [natDecimalAux, if_neg hn, List.foldl_append, List.foldl_cons,
        List.foldl_nil]
      rw [ih (n / 10) (by omega), decDigitChar_toNat (n % 10) (Nat.mod_lt n (by omega))]
      omega

/-- Decimal rendering is injective. -/
theorem natDecimal_inj {a b : Nat} (h : natDecimal a = natDecimal b) : a = b := by
  have ha := natDecimalAux_val (a + 1) a (Nat.lt_succ_self a)
  have hb := natDecimalAux_val (b + 1) b (Nat.lt_succ_self b)
  rw [← ha, ← hb]
  unfold natDecimal at h
  rw [h]

/-- Splitting two equal lists at a separator occurring in neither left
part: the parts coincide. -/
theorem append_sep_inj (sep : Char) :
    ∀ (xs xs' ys ys' : List Char), (∀ c ∈ xs, c ≠ sep) → (∀ c ∈ xs', c ≠ sep) →
      xs ++ sep :: ys = xs' ++ sep :: ys' → xs = xs' ∧ ys = ys' := by
  intro xs
  induction xs with
  | nil =>
    intro xs' ys ys' _ hx' h
    cases xs' with
    | nil => simpa using h
    | cons b t' =>
      rw [List.nil_append, List.cons_append] at h
      have hb := (List.cons.inj h).1
      exact absurd hb.symm (hx' b (by simp))
  | cons a t ih =>
    intro xs' ys ys' hx hx' h
    cases xs' with
    | nil =>
      rw [List.nil_append, List.cons_append] at h
      have ha := (List.cons.inj h).1
      exact absurd ha (hx a (by simp))
    | cons b t' =>
      rw [List.cons_append, List.cons_append] at h
      obtain ⟨rfl, h2⟩ := List.cons.inj h
      obtain ⟨rfl, rfl⟩ := ih t' ys ys'
        (fun c hc => hx c (by simp [hc])) (fun c hc => hx' c (by simp [hc])) h2
      exact ⟨rfl, rfl⟩

/-! Pipeline scheduler: invariant lemmas. -/

/-- One scheduler step preserves the order invariant: the submission
list is exactly worker-finish order, then the running job, then the
queue. -/
theorem pStep_inv (s t : PState) (a : PAct)
    (hs : s.submitted = s.workerDone ++ s.running.toList ++ s.queue)
    (h : pStep s a = some t) :
    t.submitted = t.workerDone ++ t.running.toList ++ t.queue := by
  cases a with
  | submit j =>
    by_cases hj : s.submitted.contains j
    · exfalso
      simp only [pStep] at h
      simp at h hj
      exact h.1 hj
    · simp only [pStep, hj, Bool.false_eq_true, if_false, Option.some.injEq] at h
      subst h
      simp [hs, List.append_assoc]
  | wStart =>
    rcases hr : s.running with _ | j
    · rcases hq : s.queue with _ | ⟨j, q⟩
      · simp [pStep, hr, hq] at h
      · simp only [pStep, hr, hq, Option.some.injEq] at h
        subst h
        simp only [hs, hr, hq]
        simp
    · simp [pStep, hr] at h
  | wFinish =>
    rcases hr : s.running with _ | j
    · simp [pStep, hr] at h
    · simp only [pStep, hr, Option.some.injEq] at h
      subst h
      simp only [hs, hr]
      simp
  | fRun =>
    rcases hq : s.frontQueue with _ | ⟨j, q⟩
    · simp [pStep, hq] at h
    · simp only [pStep, hq, Option.some.injEq] at h
      subst h
      simpa using hs

/-- The order invariant holds in every state reachable from a state
satisfying it. -/
theorem pRun_inv :
    ∀ (acts : List PAct) (s t : PState),
      s.submitted = s.workerDone ++ s.running.toList ++ s.queue →
      pRun s acts = some t →
      t.submitted = t.workerDone ++ t.running.toList ++ t.queue := by
  intro acts
  induction acts with
  | nil =>
    intro s t hs h
    simp only [pRun, Option.some.injEq] at h
    subst h
    exact hs
  | cons a as ih =>
    intro s t hs h
    simp only [pRun] at h
    rcases hst : pStep s a with _ | s'
    · rw [hst] at h; cases h
    · rw [hst] at h
      exact ih s' t (pStep_inv s s' a hs hst) h

/-! Claim theorems. -/

/-- C1: falsified by the code. On a worker exception `run_gen_audio`
schedules the failure-report continuation but does not return early, so
it still returns the success tuple and `eval_gen_task` also schedules
the fan-out continuation.  Evaluated at a job whose synthesis call
raises `"boom"`: BOTH the failure-report path and the success fan-out
path are invoked for the one job, not exactly one of the two. -/
theorem failure_invokes_both_outcome_paths :
    job_front_tasks envTtsFail (JobData.text ("hi".data)) =
      [FrontTask.reportError ("boom".data),
        FrontTask.postEval (JobData.text ("hi".data))] := rfl

/-- C2: falsified by the code, for the same reason as C1.  On the
success path the progress message is deleted exactly once, but for a job
whose synthesis call raises, the deletion is attempted twice: once by
`post_eval_gen_report_error` and once more by `post_eval_gen_task`,
which also runs and whose loop fails at `convert_to_voice` (no sample
file exists). -/
theorem progress_deletion_attempt_counts :
    traceAllOk.countP (fun e => e == Ev.attemptDeleteMsg) = 1 ∧
      traceEngineFail.countP (fun e => e == Ev.attemptDeleteMsg) = 2 := by
  decide

/-- C3 counterexample: cleanup does not remove only the files under the
job's own output path prefix — `clear_dir` empties the whole shared
results directory, deleting a file of a different pending job that is
not under this job's prefix `/res/1_10`. -/
theorem cleanup_deletes_foreign_file :
    hasPfx ("/res/1_10".data) otherJobFile = false ∧
      otherJobFile ∈ [jobOwnFile, otherJobFile] ∧
      otherJobFile ∉ clear_dir [jobOwnFile, otherJobFile] := by
  refine ⟨by decide, by decide, by decide⟩

/-- C3 amended: terminal-state cleanup clears the entire shared results
directory — every file present is removed, whichever job owns it — and
on the fan-out path the cleanup call is the final action of the handler,
performed only after all of this job's delivery events. -/
theorem cleanup_clears_entire_dir (files : List Str) (f : Str) (_hf : f ∈ files)
    (M : Nat) (cOk sOk : Nat → Bool) (dOk : Bool) (text : Str) (n : Nat) :
    f ∉ clear_dir files ∧
      (post_eval_gen_task M cOk sOk dOk text n).1.getLast? = some Ev.clearDir := by
  refine ⟨by simp [clear_dir], ?_⟩
  exact List.getLast?_concat _

/-- Witness for cleanup_clears_entire_dir at a concrete directory and
job. -/
theorem cleanup_clears_entire_dir_witness :
    jobOwnFile ∈ [jobOwnFile, otherJobFile] ∧
      jobOwnFile ∉ clear_dir [jobOwnFile, otherJobFile] ∧
      (post_eval_gen_task 5 (fun _ => true) (fun _ => true) true
          ("hi".data) 1).1.getLast? = some Ev.clearDir :=
  ⟨by decide,
    (cleanup_clears_entire_dir [jobOwnFile, otherJobFile] jobOwnFile (by decide)
      5 (fun _ => true) (fun _ => true) true ("hi".data) 1).1,
    (cleanup_clears_entire_dir [jobOwnFile, otherJobFile] jobOwnFile (by decide)
      5 (fun _ => true) (fun _ => true) true ("hi".data) 1).2⟩

/-- C4: any exception from transcription, re-validation or synthesis is
caught by `run_gen_audio` (a total function here: the coroutine always
completes and hands the captured detail `e` to the report path), the
report path sends exactly one localized failure notice whose payload is
`failNotice u` — a function of the user mention alone, carrying no
internal error detail — and no engine call is retried (each is made at
most once per job). -/
theorem worker_exception_single_generic_notice (env : WorkerEnv)
    (data : JobData) (e : Str) (dOk : Bool) (u : Str)
    (_h : (run_gen_audio env data).2.1 = some e) :
    noticePayloads (post_eval_gen_report_error dOk e u true) = [failNotice u] ∧
      (run_gen_audio env data).1.countP (fun w => w == WEv.callTts) ≤ 1 ∧
      (run_gen_audio env data).1.countP (fun w => w == WEv.callTranscribe) ≤ 1 := by
  refine ⟨?_, run_gen_audio_calls_bounded env data⟩
  cases dOk <;>
    simp [noticePayloads, post_eval_gen_report_error, delete_progress_msg]

/-- Witness for worker_exception_single_generic_notice at a concrete
failing job. -/
theorem worker_exception_single_generic_notice_witness :
    noticePayloads (post_eval_gen_report_error true ("boom".data) ("u".data) true)
        = [failNotice ("u".data)] ∧
      (run_gen_audio envTtsFail (JobData.text ("hi".data))).1.countP
          (fun w => w == WEv.callTts) ≤ 1 ∧
      (run_gen_audio envTtsFail (JobData.text ("hi".data))).1.countP
          (fun w => w == WEv.callTranscribe) ≤ 1 :=
  worker_exception_single_generic_notice envTtsFail (JobData.text ("hi".data))
    ("boom".data) true ("u".data) rfl

/-- C5: every delivered caption equals the input text unchanged when its
length is at most the configured maximum `M`, and the first `M`
characters of the text followed by `"..."` when it exceeds `M`. -/
theorem delivered_caption_truncation (M : Nat) (cOk sOk : Nat → Bool)
    (dOk : Bool) (text : Str) (n i : Nat) (c : Str)
    (h : Ev.sendVoice i c ∈ (post_eval_gen_task M cOk sOk dOk text n).1) :
    c = if M < text.length then text.take M ++ "...".data else text := by
  have hc := gen_loop_caption M cOk sOk n 0 text c i
    (sendVoice_mem_gen_loop M cOk sOk dOk text n i c h)
  simpa only [elide] using hc

/-- Witness for delivered_caption_truncation: text of length 3 with
maximum 1 is delivered as its first character plus the ellipsis. -/
theorem delivered_caption_truncation_witness :
    Ev.sendVoice 0 ("a...".data) ∈
        (post_eval_gen_task 1 (fun _ => true) (fun _ => true) true
          ("abc".data) 1).1 ∧
      ("a...".data : Str) =
        (if 1 < ("abc".data : Str).length
         then ("abc".data : Str).take 1 ++ "...".data else "abc".data) :=
  ⟨by decide,
    delivered_caption_truncation 1 (fun _ => true) (fun _ => true) true
      ("abc".data) 1 0 ("a...".data) (by decide)⟩

/-- C6: when the first delivery failure (conversion or send) is at
sample `k`, the handler's result is exactly: the `k` already-completed
deliveries stand in the trace, no later sample is delivered, the
progress-message removal and the directory cleanup are still performed,
and the fatal delivery error is the handler's outcome, raised after the
cleanup call (the trace ends with it). -/
theorem partial_fanout_failure (M : Nat) (cOk sOk : Nat → Bool) (dOk : Bool)
    (text : Str) (n k : Nat) (hk : k < n)
    (hpre : ∀ j, j < k → cOk j = true ∧ sOk j = true)
    (hfail : cOk k = false ∨ sOk k = false) :
    post_eval_gen_task M cOk sOk dOk text n =
      (sends_from M text 0 k ++ delete_progress_msg dOk ++ [Ev.clearDir],
        some ("Audio generation Error".data)) := by
  have h := gen_loop_fail M cOk sOk k 0 n text hk
    (fun j hj => by simpa using hpre j hj) (by simpa using hfail)
  simp [post_eval_gen_task, h.1, h.2]

/-- Witness for partial_fanout_failure: three samples, delivery of
sample 1 fails — sample 0's delivery stands, removal and cleanup happen,
the delivery error is the outcome. -/
theorem partial_fanout_failure_witness :
    post_eval_gen_task 10 (fun i => i == 0) (fun _ => true) true
        ("hi".data) 3 =
      (sends_from 10 ("hi".data) 0 1 ++ delete_progress_msg true ++
          [Ev.clearDir],
        some ("Audio generation Error".data)) :=
  partial_fanout_failure 10 (fun i => i == 0) (fun _ => true) true
    ("hi".data) 3 1 (by decide) (by decide) (by decide)

/-- C7 counterexample: two distinct submissions — same requester, at
wall-clock times 10.2s and 10.7s — receive the same output path: the
derivation floors the timestamp to whole seconds, so it is not injective
over distinct submissions. -/
theorem same_second_same_path :
    filename_result ("/res".data) 7 10200 = filename_result ("/res".data) 7 10700 ∧
      (10200 : Nat) ≠ 10700 :=
  ⟨rfl, by decide⟩

/-- C7 amended: the output path derivation is injective over the pair
(requester id, whole-second submission timestamp): two submissions get
the same path exactly when they come from the same requester within the
same wall-clock second. -/
theorem filename_result_inj (d : Str) (u1 t1 u2 t2 : Nat)
    (h : filename_result d u1 t1 = filename_result d u2 t2) :
    u1 = u2 ∧ t1 / 1000 = t2 / 1000 := by
  unfold filename_result at h
  have h1 := (List.cons.inj (List.append_cancel_left h)).2
  obtain ⟨hu, ht⟩ := append_sep_inj '_' _ _ _ _
    (fun c hc => natDecimalAux_ne_underscore (u1 + 1) u1 c hc)
    (fun c hc => natDecimalAux_ne_underscore (u2 + 1) u2 c hc) h1
  exact ⟨natDecimal_inj hu, natDecimal_inj (List.append_cancel_right ht)⟩

/-- Witness for filename_result_inj at a concrete pair of coordinates. -/
theorem filename_result_inj_witness :
    (3 : Nat) = 3 ∧ (5000 : Nat) / 1000 = 5000 / 1000 :=
  filename_result_inj ("/res".data) 3 5000 3 5000 rfl

/-- C8 counterexample: in the reachable state `pMidState`, job 1 is
already executing its worker phase while job 0 has not reached its
terminal (cleaned-up) state — job 0's front continuation is still
queued.  A job does not wait for previously submitted jobs to reach a
terminal state, only for their worker phase to finish. -/
theorem job_starts_before_predecessor_terminal :
    pRun pInit [PAct.submit 0, PAct.submit 1, PAct.wStart, PAct.wFinish,
        PAct.wStart] = some pMidState ∧
      pMidState.running = some 1 ∧ pMidState.cleaned = [] :=
  ⟨rfl, rfl, rfl⟩

/-- C8 amended: in every reachable pipeline state, the submission list is
exactly the worker-finished jobs (in finish order), then the at-most-one
currently running job, then the still-queued jobs, in order.  Hence jobs
execute in submission order, never two at once, and a job starts only
after every previously submitted job has finished its worker phase —
though possibly before those jobs' front-context delivery and cleanup
(their terminal state) completes. -/
theorem pipeline_fifo_serialized (acts : List PAct) (s : PState)
    (h : pRun pInit acts = some s) :
    s.submitted = s.workerDone ++ s.running.toList ++ s.queue ∧
      s.running.toList.length ≤ 1 := by
  refine ⟨pRun_inv acts pInit s rfl h, ?_⟩
  cases s.running <;> simp

/-- Witness for pipeline_fifo_serialized at a concrete reachable state. -/
theorem pipeline_fifo_serialized_witness :
    pMidState.submitted = pMidState.workerDone ++ pMidState.running.toList ++
        pMidState.queue ∧ pMidState.running.toList.length ≤ 1 :=
  pipeline_fifo_serialized [PAct.submit 0, PAct.submit 1, PAct.wStart,
    PAct.wFinish, PAct.wStart] pMidState rfl

/-- C9: falsified by the code.  The error-path hand-off from the worker
thread uses the thread-safe primitive, but the registered completion
continuation `eval_gen_task` — which runs on the worker thread, as the
done-callback of the worker future — invokes the front-context-owned
`app.create_task` directly, without any thread-safe hand-off. -/
theorem success_handoff_not_threadsafe :
    safeHandoffs (run_gen_audio_handoffs true) = true ∧
      safeHandoffs eval_gen_task_handoffs = false := by
  decide

/-- C10: the in-place truncation step is idempotent, so although the
fan-out loop reassigns the caption variable by truncating it on every
iteration, all delivered samples of a job carry the same caption. -/
theorem captions_all_equal (M : Nat) (cOk sOk : Nat → Bool) (dOk : Bool)
    (text : Str) (n : Nat) :
    (∀ t : Str, elide M (elide M t) = elide M t) ∧
      ∀ (i : Nat) (ci : Str) (j : Nat) (cj : Str),
        Ev.sendVoice i ci ∈ (post_eval_gen_task M cOk sOk dOk text n).1 →
        Ev.sendVoice j cj ∈ (post_eval_gen_task M cOk sOk dOk text n).1 →
        ci = cj := by
  refine ⟨elide_elide M, ?_⟩
  intro i ci j cj hi hj
  have h1 := gen_loop_caption M cOk sOk n 0 text ci i
    (sendVoice_mem_gen_loop M cOk sOk dOk text n i ci hi)
  have h2 := gen_loop_caption M cOk sOk n 0 text cj j
    (sendVoice_mem_gen_loop M cOk sOk dOk text n j cj hj)
  rw [h1, h2]

/-- Witness for captions_all_equal: a two-sample job delivers the same
caption for sample 0 and sample 1. -/
theorem captions_all_equal_witness :
    Ev.sendVoice 0 ("hi".data) ∈
        (post_eval_gen_task 10 (fun _ => true) (fun _ => true) true
          ("hi".data) 2).1 ∧
      Ev.sendVoice 1 ("hi".data) ∈
        (post_eval_gen_task 10 (fun _ => true) (fun _ => true) true
          ("hi".data) 2).1 ∧
      ("hi".data : Str) = "hi".data :=
  ⟨by decide, by decide,
    (captions_all_equal 10 (fun _ => true) (fun _ => true) true
        ("hi".data) 2).2 0 ("hi".data) 1 ("hi".data) (by decide) (by decide)⟩

end VoiceBot
